import Mathlib

/-!
Shallow embedding of the PREP-SHOT model-construction and head-iteration
engine (`prepshot/model.py`, `prepshot/utils.py`, `prepshot/_model/*.py`),
together with theorems settling the frozen claims about it.

Conventions:
* zones, technologies, stations, months and hours are indexed by natural
  numbers; years by integers; all numeric parameters and variable values
  are rationals (the Python code works with floats, whose NaN/negative-zero
  corner cases are outside the claims below except where `Option` is used
  to model a missing/NaN table entry).
* decision variables are embedded by their valuation: a linear expression
  built by a rule becomes a Lean function of the valuation of the
  variables it mentions.
* a constraint built by `add_linear_constraint(lhs, sense, 0)` is embedded
  as the value of `lhs` under the given valuation together with its sense.
-/

namespace PrepShot

/-- Python `int()` applied to a rational: truncation toward zero. -/
def pyInt (q : ℚ) : ℤ := if q < 0 then -⌊-q⌋ else ⌊q⌋

/-- `pyInt` is the identity on integers. -/
theorem pyInt_intCast (n : ℤ) : pyInt (n : ℚ) = n := by
  unfold pyInt
  by_cases h : (n : ℚ) < 0
  · rw [if_pos h]
    rw [show (-(n : ℚ)) = ((-n : ℤ) : ℚ) by push_cast; ring]
    rw [Int.floor_intCast]
    ring
  · rw [if_neg h, Int.floor_intCast]

/-- Mean of `f` over an index list (pandas `.mean` along one axis; the
claims only use it on nonempty index lists). -/
def listMean (xs : List ℕ) (f : ℕ → ℚ) : ℚ := (xs.map f).sum / xs.length

/-- Modelled from the spec: `poi.make_tupledict` / pyomo `Constraint.Skip`
semantics — a rule may return `None` to signal "no constraint for this
tuple", and "`None` entries must be filtered, not inserted as vacuous
rows" (spec 4.2).  The missing part is the pyoptinterface library
function `make_tupledict` itself, which is not part of this repository. -/
def make_tupledict {α β : Type} (keys : List α) (rule : α → Option β) :
    List (α × β) :=
  keys.filterMap fun k => (rule k).map fun c => (k, c)

theorem mem_keys_make_tupledict {α β : Type} (keys : List α)
    (rule : α → Option β) (k : α) :
    (k ∈ (make_tupledict keys rule).map Prod.fst) ↔
      k ∈ keys ∧ (rule k).isSome := by
  unfold make_tupledict
  simp only [List.mem_map, List.mem_filterMap, Option.map_eq_some']
  constructor
  · rintro ⟨⟨k', c⟩, ⟨a, ha, c', hc', h⟩, rfl⟩
    obtain ⟨rfl, rfl⟩ : a = k' ∧ c' = c := by
      constructor <;> [exact congrArg Prod.fst h; exact congrArg Prod.snd h]
    exact ⟨ha, by simp [hc']⟩
  · rintro ⟨hk, hs⟩
    obtain ⟨c, hc⟩ := Option.isSome_iff_exists.mp hs
    exact ⟨(k, c), ⟨k, hk, c, hc, rfl⟩, rfl⟩

theorem lookup_make_tupledict {α β : Type} (keys : List α)
    (rule : α → Option β) (k : α) (c : β) :
    (k, c) ∈ make_tupledict keys rule ↔ k ∈ keys ∧ rule k = some c := by
  unfold make_tupledict
  simp only [List.mem_filterMap, Option.map_eq_some']
  constructor
  · rintro ⟨a, ha, c', hc', h⟩
    obtain ⟨rfl, rfl⟩ : a = k ∧ c' = c := by
      constructor <;> [exact congrArg Prod.fst h; exact congrArg Prod.snd h]
    exact ⟨ha, hc'⟩
  · rintro ⟨hk, hc⟩
    exact ⟨k, hk, c, hc, rfl⟩

/-! ## Investment / lifecycle (`prepshot/_model/investment.py`) -/

/-- Parameters read by `AddInvestmentConstraints`: `years` is
`model.params['year']` (the ordered list of modeled years), `lifetime te y`
is `model.params['lifetime'][te, y]`, and `historical_capacity z te a` is
`model.params['historical_capacity'][z, te, a]` (age-cohort `a`). -/
structure InvestParams where
  years : List ℤ
  lifetime : ℕ → ℤ → ℚ
  historical_capacity : ℕ → ℕ → ℕ → ℚ

/-- `AddInvestmentConstraints.tech_lifetime_rule`: remaining pre-horizon
capacity of technology `te` in zone `z` at modeled year `y`. -/
def tech_lifetime_rule (p : InvestParams) (y : ℤ) (z te : ℕ) : ℚ :=
  if pyInt (p.lifetime te y - ((y - p.years.headI : ℤ) : ℚ)) ≤ 0 then 0
  else ((List.range
      (pyInt (p.lifetime te y - ((y - p.years.headI : ℤ) : ℚ))).toNat).map
      fun a => p.historical_capacity z te a).sum

/-- `AddInvestmentConstraints.remaining_capacity_rule`, the expression bound
to `model.cap_existing[y, z, te]`, evaluated under a valuation
`cap_newtech` of the new-build decision variables `cap_newtech[yy, z, te]`. -/
def remaining_capacity_rule (p : InvestParams)
    (cap_newtech : ℤ → ℕ → ℕ → ℚ) (y : ℤ) (z te : ℕ) : ℚ :=
  (((p.years.take (p.years.indexOf y + 1)).filter
      fun (yy : ℤ) => decide ((((y - yy : ℤ)) : ℚ) < p.lifetime te y)).map
    fun yy => cap_newtech yy z te).sum
  + tech_lifetime_rule p y z te

theorem take_indexOf_succ_of_sorted {l : List ℤ} {y : ℤ}
    (hs : l.Sorted (· < ·)) (hy : y ∈ l) :
    l.take (l.indexOf y + 1) = l.filter fun x => decide (x ≤ y) := by
  induction l with
  | nil => cases hy
  | cons a t ih =>
    rw [List.sorted_cons] at hs
    by_cases hay : a = y
    · subst hay
      rw [List.indexOf_cons_self]
      have ht : t.filter (fun x => decide (x ≤ a)) = [] := by
        rw [List.filter_eq_nil_iff]
        intro b hb
        simp [not_le.mpr (hs.1 b hb)]
      simp [List.filter_cons, ht]
    · have hyt : y ∈ t := by
        rcases hy with _ | h
        · exact absurd rfl hay
        · assumption
      have hlt : a < y := hs.1 y hyt
      rw [List.indexOf_cons_ne _ hay]
      rw [List.filter_cons, if_pos (by simp [hlt.le])]
      show a :: t.take (t.indexOf y + 1) = _
      rw [ih hs.2 hyt]

theorem sum_map_range_extend (f : ℕ → ℚ) (k A : ℕ) (h : k ≤ A) :
    ((List.range k).map f).sum =
      ((List.range A).map fun a => if a < k then f a else 0).sum := by
  induction A with
  | zero =>
    have : k = 0 := by omega
    subst this
    simp
  | succ n ih =>
    by_cases hk : k ≤ n
    · rw [List.range_succ, List.map_append, List.sum_append]
      rw [← ih hk]
      have hn : ¬ (n < k) := by omega
      simp [hn]
    · have hkn : k = n + 1 := by omega
      subst hkn
      have hcg : ∀ a ∈ List.range (n + 1),
          (if a < n + 1 then f a else 0) = f a := by
        intro a ha
        rw [List.mem_range] at ha
        simp [ha]
      rw [List.map_congr_left hcg]

/-- **C1**: for every (year, zone, technology), the existing-capacity
expression `cap_existing[y, z, te]` equals the sum of the new-build
variables over exactly the modeled years `yy ≤ y` with
`y - yy < lifetime(te, y)`, plus the remaining pre-horizon capacity; the
latter sums exactly the historical age cohorts whose remaining service
life `lifetime(te, y) - (y - years[0]) - a` is still positive, and it is 0
when `lifetime(te, y) - (y - years[0])` is not positive.  Hypotheses: the
modeled-year list is strictly sorted and contains `y`, the lifetime entry
is an integer (as lifetimes in years are), and the cohort range `A`
covers every in-service cohort. -/
theorem cap_existing_vintage_invariant
    (p : InvestParams) (cap_newtech : ℤ → ℕ → ℕ → ℚ) (y : ℤ) (z te : ℕ)
    (A : ℕ) (L : ℤ)
    (hsorted : p.years.Sorted (· < ·)) (hy : y ∈ p.years)
    (hL : p.lifetime te y = (L : ℚ))
    (hA : (L - (y - p.years.headI)).toNat ≤ A) :
    remaining_capacity_rule p cap_newtech y z te =
      ((p.years.filter fun (yy : ℤ) =>
          decide (yy ≤ y ∧ (((y - yy : ℤ)) : ℚ) < p.lifetime te y)).map
        fun yy => cap_newtech yy z te).sum
      + tech_lifetime_rule p y z te
    ∧ tech_lifetime_rule p y z te =
      ((List.range A).map fun (a : ℕ) =>
        if 0 < p.lifetime te y - ((y - p.years.headI : ℤ) : ℚ) - (a : ℚ)
        then p.historical_capacity z te a else 0).sum
    ∧ (p.lifetime te y - ((y - p.years.headI : ℤ) : ℚ) ≤ 0 →
        tech_lifetime_rule p y z te = 0) := by
  have hrem : pyInt (p.lifetime te y - ((y - p.years.headI : ℤ) : ℚ)) =
      L - (y - p.years.headI) := by
    rw [hL]
    rw [show ((L : ℚ) - ((y - p.years.headI : ℤ) : ℚ)) =
        (((L - (y - p.years.headI)) : ℤ) : ℚ) by push_cast; ring]
    exact pyInt_intCast _
  refine ⟨?_, ?_, ?_⟩
  · unfold remaining_capacity_rule
    rw [take_indexOf_succ_of_sorted hsorted hy]
    rw [List.filter_filter]
    have hfe : List.filter
        (fun a => decide (((y - a : ℤ) : ℚ) < p.lifetime te y) &&
          decide (a ≤ y)) p.years =
        List.filter (fun (yy : ℤ) =>
          decide (yy ≤ y ∧ (((y - yy : ℤ)) : ℚ) < p.lifetime te y))
          p.years := by
      apply List.filter_congr
      intro x _
      simp only [Bool.decide_and, Bool.and_comm]
    rw [hfe]
  · unfold tech_lifetime_rule
    simp only [hrem]
    set s : ℤ := y - p.years.headI with hs
    by_cases hpos : L - s ≤ 0
    · rw [if_pos hpos]
      have : ∀ a ∈ List.range A,
          (if 0 < p.lifetime te y - ((s : ℤ) : ℚ) - (a : ℚ)
            then p.historical_capacity z te a else 0) = 0 := by
        intro a _
        have : ¬ (0 < p.lifetime te y - ((s : ℤ) : ℚ) - (a : ℚ)) := by
          rw [hL]
          have : (L : ℚ) - s ≤ 0 := by exact_mod_cast hpos
          have ha : (0 : ℚ) ≤ (a : ℚ) := by positivity
          linarith
        rw [if_neg this]
      rw [List.map_congr_left this]
      simp
    · rw [if_neg hpos]
      push_neg at hpos
      have hk : (L - s).toNat ≤ A := hA
      rw [sum_map_range_extend _ _ _ hk]
      apply congrArg
      apply List.map_congr_left
      intro a ha
      have hcond : (a < (L - s).toNat) ↔
          (0 < p.lifetime te y - ((s : ℤ) : ℚ) - (a : ℚ)) := by
        rw [hL]
        rw [show ((L : ℚ) - ((s : ℤ) : ℚ) - (a : ℚ)) =
            (((L - s - (a : ℤ)) : ℤ) : ℚ) by push_cast; ring]
        rw [Int.cast_pos]
        omega
      by_cases hc : a < (L - s).toNat
      · rw [if_pos hc, if_pos (hcond.mp hc)]
      · rw [if_neg hc, if_neg (fun h => hc (hcond.mpr h))]
  · intro hle
    unfold tech_lifetime_rule
    simp only [hrem]
    have : L - (y - p.years.headI) ≤ 0 := by
      rw [hL] at hle
      have : ((L - (y - p.years.headI) : ℤ) : ℚ) ≤ 0 := by push_cast at hle ⊢; linarith
      exact_mod_cast this
    rw [if_pos this]

/-- Concrete instance for the C1 witness: three modeled years, a 25-year
lifetime, nontrivial age-cohort capacities. -/
def invExP : InvestParams :=
  ⟨[2020, 2030, 2040], fun _ _ => 25, fun _ _ a => (a : ℚ) + 1⟩

/-- Concrete new-build valuation for the C1 witness. -/
def invExNu : ℤ → ℕ → ℕ → ℚ := fun yy _ _ => if yy = 2020 then 7 else 3

theorem cap_existing_vintage_invariant_witness :
    List.Sorted (· < ·) invExP.years ∧ (2030 : ℤ) ∈ invExP.years ∧
    invExP.lifetime 0 2030 = ((25 : ℤ) : ℚ) ∧
    (((25 : ℤ) - (2030 - invExP.years.headI)).toNat ≤ 15) ∧
    (remaining_capacity_rule invExP invExNu 2030 0 0 =
      ((invExP.years.filter fun (yy : ℤ) =>
          decide (yy ≤ 2030 ∧ (((2030 - yy : ℤ)) : ℚ) <
            invExP.lifetime 0 2030)).map
        fun yy => invExNu yy 0 0).sum
      + tech_lifetime_rule invExP 2030 0 0
    ∧ tech_lifetime_rule invExP 2030 0 0 =
      ((List.range 15).map fun (a : ℕ) =>
        if 0 < invExP.lifetime 0 2030 -
            ((2030 - invExP.years.headI : ℤ) : ℚ) - (a : ℚ)
        then invExP.historical_capacity 0 0 a else 0).sum
    ∧ (invExP.lifetime 0 2030 - ((2030 - invExP.years.headI : ℤ) : ℚ) ≤ 0 →
        tech_lifetime_rule invExP 2030 0 0 = 0)) :=
  ⟨by decide, by decide, by norm_num [invExP], by decide,
    cap_existing_vintage_invariant invExP invExNu 2030 0 0 15 25
      (by decide) (by decide) (by norm_num [invExP]) (by decide)⟩

/-! ## Head iteration (`prepshot/_model/head_iteration.py`, identical copy in
`prepshot/utils.py`; `solve_model` calls
`run_model_iteration(model, params, params['error_threshold'],
params['iteration_number'])`).

The solver is opaque: each call to `model.optimize()` is modelled by an
oracle giving the termination status of the `k`-th solve and the per-station
new-head table that the interpolation pipeline
(`interpolate_z_by_q_or_s`, forebay/tailrace averaging, `np.maximum`) would
write into `new_waterhead` from that solution.  Water-head tables are
functions station → flattened (year, month, hour) period → head. -/

/-- A water-head table (station × period → value). -/
def Tbl : Type := ℕ → ℕ → ℚ

/-- `initialize_waterhead`: the old water head starts as the static
per-station head `reservoir_characteristics['head', s]` replicated across
every (year, month, hour) period; the new-head frame starts unset and is
modelled by an arbitrary table supplied separately. -/
def initialize_waterhead (static_head : ℕ → ℚ) : Tbl := fun s _ => static_head s

/-- The in-place boolean-mask assignment
`new_waterhead[new_waterhead <= 0] = 1` at the top of `compute_error`. -/
def clamp_nonpositive (t : Tbl) : Tbl :=
  fun s p => if t s p ≤ 0 then 1 else t s p

/-- `compute_error`: overwrites every non-positive entry of `new_waterhead`
with 1 (the Python mutation is modelled by returning the mutated table as
the second component), then returns
`(abs(new - old) / new).mean(axis='columns').mean()`: the mean over
stations of the per-station mean over periods. -/
def compute_error (stations periods : List ℕ) (oldW newW : Tbl) : ℚ × Tbl :=
  (listMean stations fun s =>
      listMean periods fun p =>
        |clamp_nonpositive newW s p - oldW s p| / clamp_nonpositive newW s p,
    clamp_nonpositive newW)

/-- Outcome of one inner solve: the reported termination status
(`optimal = true` iff `TerminationStatusCode.OPTIMAL`) and the new-head
table computed from the solution trajectories. -/
structure SolveResult where
  optimal : Bool
  heads : Tbl

/-- All inputs of `run_model_iteration`: the solve oracle, the
`params['iteration_number']` configuration read by
`process_model_solution`, the `max_iterations` argument, station and
period index lists, the `error_threshold` argument, the static heads used
by `initialize_waterhead`, and the initial (unset) new-head frame. -/
structure IterSetup where
  oracle : ℕ → SolveResult
  iteration_number : ℤ
  max_iterations : ℤ
  stations : List ℕ
  periods : List ℕ
  error_threshold : ℚ
  static_head : ℕ → ℚ
  new_init : Tbl

/-- `process_model_solution` at the `k`-th solve: pushes the current head
into the output-constraint coefficients, optimizes, returns `False` on a
non-optimal status (leaving `new_waterhead` untouched), returns `True`
without touching the caller's `new_waterhead` when
`params['iteration_number'] <= 1` (the rebinding `new_waterhead =
old_waterhead` is local), and otherwise overwrites every station row of
`new_waterhead` with the heads computed from the solution. -/
def process_model_solution (S : IterSetup) (k : ℕ) (_oldW newW : Tbl) :
    Bool × Tbl :=
  if (S.oracle k).optimal = false then (false, newW)
  else if S.iteration_number ≤ 1 then (true, newW)
  else (true, (S.oracle k).heads)

/-- The error-and-table computed inside the loop body of
`run_model_iteration`: `error = 0` when `max_iterations <= 1` (fixed-head
solve), else `compute_error(old_waterhead, new_waterhead)` on the table
left by `process_model_solution`. -/
def step_ce (S : IterSetup) (k : ℕ) (oldW newW : Tbl) : ℚ × Tbl :=
  if S.max_iterations ≤ 1 then
    ((0 : ℚ), (process_model_solution S k oldW newW).2)
  else
    compute_error S.stations S.periods oldW
      (process_model_solution S k oldW newW).2

/-- Observable outcome of `run_model_iteration`: the returned boolean, the
number of loop passes and of `optimize` calls performed, and the final
old/new water-head tables. -/
structure IterOutcome where
  result : Bool
  solves : ℕ
  iters : ℕ
  oldW : Tbl
  newW : Tbl

/-- The `for iteration in range(1, max_iterations + 1)` loop of
`run_model_iteration`, over the list of remaining iteration indices:
solve, return `False` on failure, compute the error, return `True` below
the threshold, else apply the damped update
`old_waterhead += (1 / iteration) * (new_waterhead - old_waterhead)` and
continue; after the list is exhausted, log a warning and return `True`. -/
def run_loop (S : IterSetup) : List ℕ → Tbl → Tbl → IterOutcome
  | [], oldW, newW => ⟨true, 0, 0, oldW, newW⟩
  | k :: rest, oldW, newW =>
    if (process_model_solution S k oldW newW).1 = false then
      ⟨false, 1, 1, oldW, (process_model_solution S k oldW newW).2⟩
    else if (step_ce S k oldW newW).1 < S.error_threshold then
      ⟨true, 1, 1, oldW, (step_ce S k oldW newW).2⟩
    else
      ⟨(run_loop S rest
          (fun s p => oldW s p +
            (1 / (k : ℚ)) * ((step_ce S k oldW newW).2 s p - oldW s p))
          ((step_ce S k oldW newW).2)).result,
        (run_loop S rest
          (fun s p => oldW s p +
            (1 / (k : ℚ)) * ((step_ce S k oldW newW).2 s p - oldW s p))
          ((step_ce S k oldW newW).2)).solves + 1,
        (run_loop S rest
          (fun s p => oldW s p +
            (1 / (k : ℚ)) * ((step_ce S k oldW newW).2 s p - oldW s p))
          ((step_ce S k oldW newW).2)).iters + 1,
        (run_loop S rest
          (fun s p => oldW s p +
            (1 / (k : ℚ)) * ((step_ce S k oldW newW).2 s p - oldW s p))
          ((step_ce S k oldW newW).2)).oldW,
        (run_loop S rest
          (fun s p => oldW s p +
            (1 / (k : ℚ)) * ((step_ce S k oldW newW).2 s p - oldW s p))
          ((step_ce S k oldW newW).2)).newW⟩

/-- `run_model_iteration`: initialize the water head, then iterate
`range(1, max_iterations + 1)`. -/
def run_model_iteration (S : IterSetup) : IterOutcome :=
  run_loop S (List.range' 1 S.max_iterations.toNat)
    (initialize_waterhead S.static_head) S.new_init

/-- The (old, new) water-head tables held by `run_model_iteration` before
iteration `k + 1`, assuming every earlier iteration ran to its damped
update. -/
def iter_state (S : IterSetup) : ℕ → Tbl × Tbl
  | 0 => (initialize_waterhead S.static_head, S.new_init)
  | k + 1 =>
    ((fun s p => (iter_state S k).1 s p +
        (1 / ((k + 1 : ℕ) : ℚ)) *
          ((step_ce S (k + 1) (iter_state S k).1 (iter_state S k).2).2 s p -
            (iter_state S k).1 s p)),
      (step_ce S (k + 1) (iter_state S k).1 (iter_state S k).2).2)

/-- The error value computed in iteration `k ≥ 1` of
`run_model_iteration` (along a run whose earlier iterations all
continued). -/
def head_error_at (S : IterSetup) (k : ℕ) : ℚ :=
  (step_ce S k (iter_state S (k - 1)).1 (iter_state S (k - 1)).2).1

theorem process_model_solution_fst (S : IterSetup) (k : ℕ)
    (oldW newW : Tbl) :
    (process_model_solution S k oldW newW).1 = (S.oracle k).optimal := by
  unfold process_model_solution
  cases h : (S.oracle k).optimal
  · simp [h]
  · rw [if_neg (by simp [h])]
    split <;> rfl

theorem run_loop_nil (S : IterSetup) (oldW newW : Tbl) :
    run_loop S [] oldW newW = ⟨true, 0, 0, oldW, newW⟩ := rfl

theorem run_loop_cons_fail (S : IterSetup) (k : ℕ) (rest : List ℕ)
    (oldW newW : Tbl) (h : (S.oracle k).optimal = false) :
    run_loop S (k :: rest) oldW newW = ⟨false, 1, 1, oldW, newW⟩ := by
  have hp : process_model_solution S k oldW newW = (false, newW) := by
    unfold process_model_solution
    rw [if_pos (by rw [h])]
  simp only [run_loop, hp]
  simp

theorem run_loop_cons_ok (S : IterSetup) (k : ℕ) (rest : List ℕ)
    (oldW newW : Tbl) (h : (S.oracle k).optimal = true) :
    run_loop S (k :: rest) oldW newW =
      if (step_ce S k oldW newW).1 < S.error_threshold then
        ⟨true, 1, 1, oldW, (step_ce S k oldW newW).2⟩
      else
        ⟨(run_loop S rest
            (fun s p => oldW s p +
              (1 / (k : ℚ)) * ((step_ce S k oldW newW).2 s p - oldW s p))
            ((step_ce S k oldW newW).2)).result,
          (run_loop S rest
            (fun s p => oldW s p +
              (1 / (k : ℚ)) * ((step_ce S k oldW newW).2 s p - oldW s p))
            ((step_ce S k oldW newW).2)).solves + 1,
          (run_loop S rest
            (fun s p => oldW s p +
              (1 / (k : ℚ)) * ((step_ce S k oldW newW).2 s p - oldW s p))
            ((step_ce S k oldW newW).2)).iters + 1,
          (run_loop S rest
            (fun s p => oldW s p +
              (1 / (k : ℚ)) * ((step_ce S k oldW newW).2 s p - oldW s p))
            ((step_ce S k oldW newW).2)).oldW,
          (run_loop S rest
            (fun s p => oldW s p +
              (1 / (k : ℚ)) * ((step_ce S k oldW newW).2 s p - oldW s p))
            ((step_ce S k oldW newW).2)).newW⟩ := by
  have hp1 : ¬ ((process_model_solution S k oldW newW).1 = false) := by
    rw [process_model_solution_fst, h]
    simp
  simp only [run_loop]
  rw [if_neg hp1]

theorem head_error_at_def (S : IterSetup) (a : ℕ) :
    head_error_at S a =
      (step_ce S a (iter_state S (a - 1)).1 (iter_state S (a - 1)).2).1 := rfl

theorem iter_state_fst_succ (S : IterSetup) (b : ℕ) :
    (iter_state S (b + 1)).1 =
      fun s p => (iter_state S (b + 1 - 1)).1 s p +
        (1 / ((b + 1 : ℕ) : ℚ)) *
          ((step_ce S (b + 1) (iter_state S (b + 1 - 1)).1
              (iter_state S (b + 1 - 1)).2).2 s p -
            (iter_state S (b + 1 - 1)).1 s p) := rfl

theorem iter_state_snd_succ (S : IterSetup) (b : ℕ) :
    (iter_state S (b + 1)).2 =
      (step_ce S (b + 1) (iter_state S (b + 1 - 1)).1
        (iter_state S (b + 1 - 1)).2).2 := rfl

theorem run_loop_false_iff (S : IterSetup) (n : ℕ) :
    ∀ a : ℕ, 1 ≤ a →
      ((run_loop S (List.range' a n)
          (iter_state S (a - 1)).1 (iter_state S (a - 1)).2).result = false ↔
        ∃ k, a ≤ k ∧ k < a + n ∧ (S.oracle k).optimal = false ∧
          ∀ j, a ≤ j → j < k →
            (S.oracle j).optimal = true ∧
              S.error_threshold ≤ head_error_at S j) := by
  induction n with
  | zero =>
    intro a ha
    constructor
    · intro h
      rw [show List.range' a 0 = [] from rfl, run_loop_nil] at h
      simp at h
    · rintro ⟨k, hk1, hk2, _⟩
      omega
  | succ n ih =>
    intro a ha
    rw [List.range'_succ]
    by_cases hopt : (S.oracle a).optimal = true
    · rw [run_loop_cons_ok S a _ _ _ hopt]
      by_cases hconv :
          (step_ce S a (iter_state S (a - 1)).1 (iter_state S (a - 1)).2).1 <
            S.error_threshold
      · rw [if_pos hconv]
        constructor
        · intro h
          simp at h
        · rintro ⟨k, hk1, hk2, hkf, hall⟩
          exfalso
          by_cases hka : k = a
          · subst hka
            rw [hopt] at hkf
            cases hkf
          · have hlt : a < k := by omega
            have h2 := (hall a (le_refl a) hlt).2
            rw [head_error_at_def] at h2
            exact absurd hconv (not_lt.mpr h2)
      · rw [if_neg hconv]
        obtain ⟨b, rfl⟩ : ∃ b, a = b + 1 := ⟨a - 1, by omega⟩
        have hrec := ih (b + 1 + 1) (by omega)
        rw [show b + 1 + 1 - 1 = b + 1 from rfl] at hrec
        rw [← iter_state_fst_succ S b, ← iter_state_snd_succ S b]
        show (run_loop S (List.range' (b + 1 + 1) n)
            (iter_state S (b + 1)).1 (iter_state S (b + 1)).2).result =
              false ↔ _
        rw [hrec]
        constructor
        · rintro ⟨k, hk1, hk2, hkf, hall⟩
          refine ⟨k, by omega, by omega, hkf, ?_⟩
          intro j hj1 hj2
          by_cases hja : j = b + 1
          · subst hja
            exact ⟨hopt, by rw [head_error_at_def]; exact not_lt.mp hconv⟩
          · exact hall j (by omega) hj2
        · rintro ⟨k, hk1, hk2, hkf, hall⟩
          have hka : k ≠ b + 1 := by
            intro hka
            subst hka
            rw [hopt] at hkf
            cases hkf
          refine ⟨k, by omega, by omega, hkf, ?_⟩
          intro j hj1 hj2
          exact hall j (by omega) hj2
    · have hf : (S.oracle a).optimal = false := by
        revert hopt
        cases (S.oracle a).optimal <;> simp
      rw [run_loop_cons_fail S a _ _ _ hf]
      constructor
      · intro _
        exact ⟨a, le_refl a, by omega, hf, fun j hj1 hj2 => by omega⟩
      · intro _
        rfl

theorem run_loop_exhaust (S : IterSetup) (n : ℕ) :
    ∀ a : ℕ, 1 ≤ a →
      (∀ k, a ≤ k → k < a + n →
        (S.oracle k).optimal = true ∧
          S.error_threshold ≤ head_error_at S k) →
      run_loop S (List.range' a n)
          (iter_state S (a - 1)).1 (iter_state S (a - 1)).2 =
        ⟨true, n, n, (iter_state S (a - 1 + n)).1,
          (iter_state S (a - 1 + n)).2⟩ := by
  induction n with
  | zero =>
    intro a ha _
    rw [show List.range' a 0 = [] from rfl, run_loop_nil, Nat.add_zero]
  | succ n ih =>
    intro a ha hall
    rw [List.range'_succ]
    have hopt : (S.oracle a).optimal = true := (hall a (le_refl a) (by omega)).1
    rw [run_loop_cons_ok S a _ _ _ hopt]
    have hconv : ¬ ((step_ce S a (iter_state S (a - 1)).1
        (iter_state S (a - 1)).2).1 < S.error_threshold) := by
      have h2 := (hall a (le_refl a) (by omega)).2
      rw [head_error_at_def] at h2
      exact not_lt.mpr h2
    rw [if_neg hconv]
    obtain ⟨b, rfl⟩ : ∃ b, a = b + 1 := ⟨a - 1, by omega⟩
    have hrec := ih (b + 1 + 1) (by omega)
      (fun k hk1 hk2 => hall k (by omega) (by omega))
    rw [show b + 1 + 1 - 1 = b + 1 from rfl] at hrec
    rw [← iter_state_fst_succ S b, ← iter_state_snd_succ S b, hrec]
    show (⟨true, n + 1, n + 1, (iter_state S (b + 1 + n)).1,
        (iter_state S (b + 1 + n)).2⟩ : IterOutcome) = _
    have harith : b + 1 - 1 + (n + 1) = b + 1 + n := by omega
    rw [harith]

theorem run_loop_count (S : IterSetup) :
    ∀ (ks : List ℕ) (oldW newW : Tbl),
      (run_loop S ks oldW newW).iters = (run_loop S ks oldW newW).solves ∧
      (run_loop S ks oldW newW).solves ≤ ks.length ∧
      (ks ≠ [] → 1 ≤ (run_loop S ks oldW newW).solves) := by
  intro ks
  induction ks with
  | nil =>
    intro oldW newW
    exact ⟨rfl, le_refl 0, fun h => absurd rfl h⟩
  | cons k rest ih =>
    intro oldW newW
    by_cases hopt : (S.oracle k).optimal = true
    · rw [run_loop_cons_ok S k rest oldW newW hopt]
      by_cases hconv : (step_ce S k oldW newW).1 < S.error_threshold
      · rw [if_pos hconv]
        exact ⟨rfl, by simp, fun _ => le_refl 1⟩
      · rw [if_neg hconv]
        obtain ⟨h1, h2, _⟩ := ih
          (fun s p => oldW s p +
            (1 / (k : ℚ)) * ((step_ce S k oldW newW).2 s p - oldW s p))
          ((step_ce S k oldW newW).2)
        refine ⟨?_, ?_, fun _ => ?_⟩
        · show (run_loop S rest
              (fun s p => oldW s p +
                (1 / (k : ℚ)) * ((step_ce S k oldW newW).2 s p - oldW s p))
              ((step_ce S k oldW newW).2)).iters + 1 = _ + 1
          omega
        · show (run_loop S rest
              (fun s p => oldW s p +
                (1 / (k : ℚ)) * ((step_ce S k oldW newW).2 s p - oldW s p))
              ((step_ce S k oldW newW).2)).solves + 1 ≤ (k :: rest).length
          simp only [List.length_cons]
          omega
        · show 1 ≤ (run_loop S rest
              (fun s p => oldW s p +
                (1 / (k : ℚ)) * ((step_ce S k oldW newW).2 s p - oldW s p))
              ((step_ce S k oldW newW).2)).solves + 1
          omega
    · have hf : (S.oracle k).optimal = false := by
        revert hopt
        cases (S.oracle k).optimal <;> simp
      rw [run_loop_cons_fail S k rest oldW newW hf]
      exact ⟨rfl, by simp, fun _ => le_refl 1⟩

/-- **C2**: `run_model_iteration` returns `False` exactly when some inner
optimize call that it performs reports a non-optimal termination status
(it stops at the first such call, every earlier iteration having solved
optimally without reaching the convergence threshold); and when every
solve within the budget is optimal but no error drops below the
threshold, the loop exhausts its iteration budget, logs a warning and
still returns `True` with the last (unconverged) head accepted. -/
theorem run_model_iteration_failure_semantics (S : IterSetup) :
    ((run_model_iteration S).result = false ↔
      ∃ k, 1 ≤ k ∧ k ≤ S.max_iterations.toNat ∧
        (S.oracle k).optimal = false ∧
        ∀ j, 1 ≤ j → j < k →
          (S.oracle j).optimal = true ∧
            S.error_threshold ≤ head_error_at S j)
    ∧ ((∀ k, 1 ≤ k → k ≤ S.max_iterations.toNat →
          (S.oracle k).optimal = true ∧
            S.error_threshold ≤ head_error_at S k) →
        (run_model_iteration S).result = true ∧
        (run_model_iteration S).solves = S.max_iterations.toNat) := by
  have h : (run_model_iteration S).result = false ↔
      ∃ k, 1 ≤ k ∧ k < 1 + S.max_iterations.toNat ∧
        (S.oracle k).optimal = false ∧
        ∀ j, 1 ≤ j → j < k →
          (S.oracle j).optimal = true ∧
            S.error_threshold ≤ head_error_at S j :=
    run_loop_false_iff S S.max_iterations.toNat 1 (le_refl 1)
  constructor
  · rw [h]
    constructor
    · rintro ⟨k, hk1, hk2, hkf, hall⟩
      exact ⟨k, hk1, by omega, hkf, hall⟩
    · rintro ⟨k, hk1, hk2, hkf, hall⟩
      exact ⟨k, hk1, by omega, hkf, hall⟩
  · intro hall
    have he : run_model_iteration S =
        ⟨true, S.max_iterations.toNat, S.max_iterations.toNat,
          (iter_state S (0 + S.max_iterations.toNat)).1,
          (iter_state S (0 + S.max_iterations.toNat)).2⟩ :=
      run_loop_exhaust S S.max_iterations.toNat 1 (le_refl 1)
        (fun k hk1 hk2 => hall k hk1 (by omega))
    rw [he]
    exact ⟨rfl, rfl⟩

/-- **C10**: for every `max_iterations ≥ 1`, `run_model_iteration`
terminates after between 1 and `max_iterations` loop iterations, invokes
the inner optimize call exactly once per iteration, and returns a boolean
on every path. -/
theorem run_model_iteration_terminates (S : IterSetup)
    (h1 : 1 ≤ S.max_iterations) :
    1 ≤ (run_model_iteration S).solves ∧
    (run_model_iteration S).solves ≤ S.max_iterations.toNat ∧
    (run_model_iteration S).iters = (run_model_iteration S).solves ∧
    ((run_model_iteration S).result = true ∨
      (run_model_iteration S).result = false) := by
  obtain ⟨hi, hs, ho⟩ := run_loop_count S
    (List.range' 1 S.max_iterations.toNat)
    (initialize_waterhead S.static_head) S.new_init
  have hne : List.range' 1 S.max_iterations.toNat ≠ [] := by
    rw [Ne, List.range'_eq_nil]
    omega
  have hlen : (List.range' 1 S.max_iterations.toNat).length =
      S.max_iterations.toNat := List.length_range' 1 1 _
  refine ⟨ho hne, ?_, hi, ?_⟩
  · rw [hlen] at hs
    exact hs
  · cases hres : (run_model_iteration S).result
    · exact Or.inr rfl
    · exact Or.inl rfl

/-- Concrete setup for the C10 witness: two optimal solves with constant
heads. -/
def iterExS2 : IterSetup :=
  ⟨fun _ => ⟨true, fun _ _ => 2⟩, 2, 2, [0], [0], 1/1000, fun _ => 5,
    fun _ _ => 1⟩

theorem run_model_iteration_terminates_witness :
    (1 : ℤ) ≤ iterExS2.max_iterations ∧
    (1 ≤ (run_model_iteration iterExS2).solves ∧
      (run_model_iteration iterExS2).solves ≤
        iterExS2.max_iterations.toNat ∧
      (run_model_iteration iterExS2).iters =
        (run_model_iteration iterExS2).solves ∧
      ((run_model_iteration iterExS2).result = true ∨
        (run_model_iteration iterExS2).result = false)) :=
  ⟨by decide, run_model_iteration_terminates iterExS2 (by decide)⟩

/-- **C4** (amended): when `max_iterations = 1` (with the configured
`iteration_number` equal to it, as `solve_model` passes), the threshold
positive and the single solve optimal, `run_model_iteration` performs
exactly one inner optimize call, sets the error to 0, converges and
returns `True`, with the old-head table still the initial static
per-station head replicated across all periods and the new-head frame
untouched by any solution trajectory; when `max_iterations ≤ 0` the loop
body never runs: zero optimize calls and `True` returned immediately. -/
theorem run_model_iteration_fixed_head (S : IterSetup)
    (hcfg : S.iteration_number = S.max_iterations)
    (hthr : 0 < S.error_threshold)
    (hopt : (S.oracle 1).optimal = true) :
    (S.max_iterations = 1 →
      (run_model_iteration S).result = true ∧
      (run_model_iteration S).solves = 1 ∧
      head_error_at S 1 = 0 ∧
      (run_model_iteration S).oldW = initialize_waterhead S.static_head ∧
      (run_model_iteration S).newW = S.new_init ∧
      ∀ s p, (run_model_iteration S).oldW s p = S.static_head s)
    ∧ (S.max_iterations ≤ 0 →
      (run_model_iteration S).solves = 0 ∧
      (run_model_iteration S).result = true) := by
  constructor
  · intro hm
    have hstep : step_ce S 1 (initialize_waterhead S.static_head) S.new_init
        = ((0 : ℚ), S.new_init) := by
      unfold step_ce
      rw [if_pos (by omega)]
      unfold process_model_solution
      rw [if_neg (by simp [hopt]), if_pos (by omega)]
    have herr : head_error_at S 1 = 0 := by
      rw [head_error_at_def]
      show (step_ce S 1 (initialize_waterhead S.static_head) S.new_init).1 = 0
      rw [hstep]
    have htn : S.max_iterations.toNat = 1 := by omega
    have hloop : run_model_iteration S =
        ⟨true, 1, 1, initialize_waterhead S.static_head, S.new_init⟩ := by
      unfold run_model_iteration
      rw [htn, show List.range' 1 1 = [1] from rfl]
      rw [run_loop_cons_ok S 1 [] _ _ hopt, hstep]
      rw [if_pos (show ((0 : ℚ), S.new_init).1 < S.error_threshold by
        simpa using hthr)]
    rw [hloop]
    exact ⟨rfl, rfl, herr, rfl, rfl, fun s p => rfl⟩
  · intro hm0
    have htn : S.max_iterations.toNat = 0 := by omega
    have hloop : run_model_iteration S =
        ⟨true, 0, 0, initialize_waterhead S.static_head, S.new_init⟩ := by
      unfold run_model_iteration
      rw [htn, show List.range' 1 0 = [] from rfl, run_loop_nil]
    rw [hloop]
    exact ⟨rfl, rfl⟩

/-- Concrete setup for the C4 counterexample and witness: an optimal
solver with constant heads. -/
def iterZeroS : IterSetup :=
  ⟨fun _ => ⟨true, fun _ _ => 2⟩, 0, 0, [0], [0], 1/1000, fun _ => 5,
    fun _ _ => 1⟩

/-- **C4 counterexample**: at the concrete configuration
`max_iterations = 0 ≤ 1` with an always-optimal solver,
`run_model_iteration` performs zero inner optimize calls, refuting
"for every configured max_iterations ≤ 1 ... performs exactly one inner
optimize call". -/
theorem run_model_iteration_zero_budget_cex :
    iterZeroS.max_iterations ≤ 1 ∧
    (iterZeroS.oracle 1).optimal = true ∧
    (run_model_iteration iterZeroS).solves = 0 ∧
    ¬ ((run_model_iteration iterZeroS).solves = 1) := by
  refine ⟨by decide, rfl, rfl, ?_⟩
  intro h
  rw [show (run_model_iteration iterZeroS).solves = 0 from rfl] at h
  cases h

/-- Concrete setup for the C4 witness: `max_iterations = 1`. -/
def iterOneS : IterSetup :=
  ⟨fun _ => ⟨true, fun _ _ => 2⟩, 1, 1, [0], [0], 1/1000, fun _ => 5,
    fun _ _ => 1⟩

theorem run_model_iteration_fixed_head_witness :
    iterOneS.iteration_number = iterOneS.max_iterations ∧
    (0 : ℚ) < iterOneS.error_threshold ∧
    (iterOneS.oracle 1).optimal = true ∧
    ((iterOneS.max_iterations = 1 →
      (run_model_iteration iterOneS).result = true ∧
      (run_model_iteration iterOneS).solves = 1 ∧
      head_error_at iterOneS 1 = 0 ∧
      (run_model_iteration iterOneS).oldW =
        initialize_waterhead iterOneS.static_head ∧
      (run_model_iteration iterOneS).newW = iterOneS.new_init ∧
      ∀ s p, (run_model_iteration iterOneS).oldW s p =
        iterOneS.static_head s)
    ∧ (iterOneS.max_iterations ≤ 0 →
      (run_model_iteration iterOneS).solves = 0 ∧
      (run_model_iteration iterOneS).result = true)) :=
  ⟨rfl, by norm_num [iterOneS], rfl,
    run_model_iteration_fixed_head iterOneS rfl
      (by norm_num [iterOneS]) rfl⟩

/-- **C5**: `compute_error` equals the mean over stations of the mean over
periods of |new − old| / new, with every non-positive entry of the
new-head table first replaced by 1; and the head update of a
non-converged iteration `k` continues the loop with
`old + (1/k) * (new − old)` entrywise, `new` being the table produced by
`compute_error`. -/
theorem compute_error_mean_and_damped_update
    (stations periods : List ℕ) (oldW newW : Tbl)
    (S : IterSetup) (k : ℕ) (rest : List ℕ) (oldW2 newW2 : Tbl)
    (hopt : (S.oracle k).optimal = true)
    (hnum : ¬ S.iteration_number ≤ 1)
    (hmax : ¬ S.max_iterations ≤ 1)
    (hnc : S.error_threshold ≤
      (compute_error S.stations S.periods oldW2 (S.oracle k).heads).1) :
    (compute_error stations periods oldW newW).1 =
      ((stations.map fun s =>
          ((periods.map fun p =>
              |(if newW s p ≤ 0 then 1 else newW s p) - oldW s p| /
                (if newW s p ≤ 0 then 1 else newW s p)).sum) /
            (periods.length : ℚ)).sum) / (stations.length : ℚ)
    ∧ run_loop S (k :: rest) oldW2 newW2 =
      ⟨(run_loop S rest
          (fun s p => oldW2 s p + (1 / (k : ℚ)) *
            ((compute_error S.stations S.periods oldW2
                (S.oracle k).heads).2 s p - oldW2 s p))
          ((compute_error S.stations S.periods oldW2
            (S.oracle k).heads).2)).result,
        (run_loop S rest
          (fun s p => oldW2 s p + (1 / (k : ℚ)) *
            ((compute_error S.stations S.periods oldW2
                (S.oracle k).heads).2 s p - oldW2 s p))
          ((compute_error S.stations S.periods oldW2
            (S.oracle k).heads).2)).solves + 1,
        (run_loop S rest
          (fun s p => oldW2 s p + (1 / (k : ℚ)) *
            ((compute_error S.stations S.periods oldW2
                (S.oracle k).heads).2 s p - oldW2 s p))
          ((compute_error S.stations S.periods oldW2
            (S.oracle k).heads).2)).iters + 1,
        (run_loop S rest
          (fun s p => oldW2 s p + (1 / (k : ℚ)) *
            ((compute_error S.stations S.periods oldW2
                (S.oracle k).heads).2 s p - oldW2 s p))
          ((compute_error S.stations S.periods oldW2
            (S.oracle k).heads).2)).oldW,
        (run_loop S rest
          (fun s p => oldW2 s p + (1 / (k : ℚ)) *
            ((compute_error S.stations S.periods oldW2
                (S.oracle k).heads).2 s p - oldW2 s p))
          ((compute_error S.stations S.periods oldW2
            (S.oracle k).heads).2)).newW⟩ := by
  have hpr : (process_model_solution S k oldW2 newW2).2 =
      (S.oracle k).heads := by
    unfold process_model_solution
    rw [if_neg (by simp [hopt]), if_neg hnum]
  have hstep : step_ce S k oldW2 newW2 =
      compute_error S.stations S.periods oldW2 (S.oracle k).heads := by
    unfold step_ce
    rw [if_neg hmax, hpr]
  constructor
  · rfl
  · rw [run_loop_cons_ok S k rest oldW2 newW2 hopt, hstep]
    rw [if_neg (not_lt.mpr hnc)]

/-- Concrete instance for the C5 witness: one station, one period, old
head 3, computed head −2 (clamped to 1, error 2 ≥ threshold 1). -/
def ceExS : IterSetup :=
  ⟨fun _ => ⟨true, fun _ _ => -2⟩, 5, 5, [0], [0], 1, fun _ => 3,
    fun _ _ => 0⟩

/-- Concrete old-head table for the C5 and C9 witnesses. -/
def ceExOld : Tbl := fun _ _ => 3

theorem compute_error_mean_and_damped_update_witness :
    (ceExS.oracle 1).optimal = true ∧
    ¬ ceExS.iteration_number ≤ 1 ∧
    ¬ ceExS.max_iterations ≤ 1 ∧
    ceExS.error_threshold ≤
      (compute_error ceExS.stations ceExS.periods ceExOld
        (ceExS.oracle 1).heads).1 ∧
    ((compute_error [0] [0] ceExOld (fun _ _ => -2)).1 =
      (([0].map fun s =>
          (([0].map fun p =>
              |(if ((fun _ _ => (-2 : ℚ)) s p) ≤ 0 then 1
                  else (fun _ _ => (-2 : ℚ)) s p) - ceExOld s p| /
                (if ((fun _ _ => (-2 : ℚ)) s p) ≤ 0 then 1
                  else (fun _ _ => (-2 : ℚ)) s p)).sum) /
            (([0] : List ℕ).length : ℚ)).sum) / (([0] : List ℕ).length : ℚ)
    ∧ run_loop ceExS (1 :: []) ceExOld ceExS.new_init =
      ⟨(run_loop ceExS []
          (fun s p => ceExOld s p + (1 / ((1 : ℕ) : ℚ)) *
            ((compute_error ceExS.stations ceExS.periods ceExOld
                (ceExS.oracle 1).heads).2 s p - ceExOld s p))
          ((compute_error ceExS.stations ceExS.periods ceExOld
            (ceExS.oracle 1).heads).2)).result,
        (run_loop ceExS []
          (fun s p => ceExOld s p + (1 / ((1 : ℕ) : ℚ)) *
            ((compute_error ceExS.stations ceExS.periods ceExOld
                (ceExS.oracle 1).heads).2 s p - ceExOld s p))
          ((compute_error ceExS.stations ceExS.periods ceExOld
            (ceExS.oracle 1).heads).2)).solves + 1,
        (run_loop ceExS []
          (fun s p => ceExOld s p + (1 / ((1 : ℕ) : ℚ)) *
            ((compute_error ceExS.stations ceExS.periods ceExOld
                (ceExS.oracle 1).heads).2 s p - ceExOld s p))
          ((compute_error ceExS.stations ceExS.periods ceExOld
            (ceExS.oracle 1).heads).2)).iters + 1,
        (run_loop ceExS []
          (fun s p => ceExOld s p + (1 / ((1 : ℕ) : ℚ)) *
            ((compute_error ceExS.stations ceExS.periods ceExOld
                (ceExS.oracle 1).heads).2 s p - ceExOld s p))
          ((compute_error ceExS.stations ceExS.periods ceExOld
            (ceExS.oracle 1).heads).2)).oldW,
        (run_loop ceExS []
          (fun s p => ceExOld s p + (1 / ((1 : ℕ) : ℚ)) *
            ((compute_error ceExS.stations ceExS.periods ceExOld
                (ceExS.oracle 1).heads).2 s p - ceExOld s p))
          ((compute_error ceExS.stations ceExS.periods ceExOld
            (ceExS.oracle 1).heads).2)).newW⟩) :=
  ⟨rfl, by decide, by decide,
    by norm_num [ceExS, ceExOld, compute_error, listMean, clamp_nonpositive],
    compute_error_mean_and_damped_update [0] [0] ceExOld (fun _ _ => -2)
      ceExS 1 [] ceExOld ceExS.new_init rfl (by decide) (by decide)
      (by norm_num [ceExS, ceExOld, compute_error, listMean,
        clamp_nonpositive])⟩

/-- **C9**: `compute_error` hands back its `new_waterhead` argument with
every entry that was ≤ 0 overwritten by 1 and every other entry
unchanged (the Python mutation is in place; the old table is not
written), so the damped update of a non-converged iteration uses the
clamped value 1 in place of any originally non-positive head. -/
theorem compute_error_mutates_new_waterhead
    (stations periods : List ℕ) (oldW newW : Tbl) (s p : ℕ)
    (S : IterSetup) (k : ℕ) (rest : List ℕ) (oldW2 newW2 : Tbl)
    (hopt : (S.oracle k).optimal = true)
    (hnum : ¬ S.iteration_number ≤ 1)
    (hmax : ¬ S.max_iterations ≤ 1)
    (hnc : S.error_threshold ≤
      (compute_error S.stations S.periods oldW2 (S.oracle k).heads).1) :
    (compute_error stations periods oldW newW).2 s p =
      (if newW s p ≤ 0 then 1 else newW s p)
    ∧ (newW s p ≤ 0 → (compute_error stations periods oldW newW).2 s p = 1)
    ∧ (0 < newW s p →
        (compute_error stations periods oldW newW).2 s p = newW s p)
    ∧ run_loop S (k :: rest) oldW2 newW2 =
      ⟨(run_loop S rest
          (fun a b => oldW2 a b + (1 / (k : ℚ)) *
            ((if (S.oracle k).heads a b ≤ 0 then 1
              else (S.oracle k).heads a b) - oldW2 a b))
          (fun a b => if (S.oracle k).heads a b ≤ 0 then 1
            else (S.oracle k).heads a b)).result,
        (run_loop S rest
          (fun a b => oldW2 a b + (1 / (k : ℚ)) *
            ((if (S.oracle k).heads a b ≤ 0 then 1
              else (S.oracle k).heads a b) - oldW2 a b))
          (fun a b => if (S.oracle k).heads a b ≤ 0 then 1
            else (S.oracle k).heads a b)).solves + 1,
        (run_loop S rest
          (fun a b => oldW2 a b + (1 / (k : ℚ)) *
            ((if (S.oracle k).heads a b ≤ 0 then 1
              else (S.oracle k).heads a b) - oldW2 a b))
          (fun a b => if (S.oracle k).heads a b ≤ 0 then 1
            else (S.oracle k).heads a b)).iters + 1,
        (run_loop S rest
          (fun a b => oldW2 a b + (1 / (k : ℚ)) *
            ((if (S.oracle k).heads a b ≤ 0 then 1
              else (S.oracle k).heads a b) - oldW2 a b))
          (fun a b => if (S.oracle k).heads a b ≤ 0 then 1
            else (S.oracle k).heads a b)).oldW,
        (run_loop S rest
          (fun a b => oldW2 a b + (1 / (k : ℚ)) *
            ((if (S.oracle k).heads a b ≤ 0 then 1
              else (S.oracle k).heads a b) - oldW2 a b))
          (fun a b => if (S.oracle k).heads a b ≤ 0 then 1
            else (S.oracle k).heads a b)).newW⟩ := by
  have hpr : (process_model_solution S k oldW2 newW2).2 =
      (S.oracle k).heads := by
    unfold process_model_solution
    rw [if_neg (by simp [hopt]), if_neg hnum]
  have hstep : step_ce S k oldW2 newW2 =
      compute_error S.stations S.periods oldW2 (S.oracle k).heads := by
    unfold step_ce
    rw [if_neg hmax, hpr]
  refine ⟨rfl, ?_, ?_, ?_⟩
  · intro h
    show (if newW s p ≤ 0 then (1 : ℚ) else newW s p) = 1
    rw [if_pos h]
  · intro h
    show (if newW s p ≤ 0 then (1 : ℚ) else newW s p) = newW s p
    rw [if_neg (not_le.mpr h)]
  · rw [run_loop_cons_ok S k rest oldW2 newW2 hopt, hstep]
    rw [if_neg (not_lt.mpr hnc)]
    rfl

theorem compute_error_mutates_new_waterhead_witness :
    (ceExS.oracle 1).optimal = true ∧
    ¬ ceExS.iteration_number ≤ 1 ∧
    ¬ ceExS.max_iterations ≤ 1 ∧
    ceExS.error_threshold ≤
      (compute_error ceExS.stations ceExS.periods ceExOld
        (ceExS.oracle 1).heads).1 ∧
    ((compute_error [0] [0] ceExOld (fun _ _ => -2)).2 0 0 =
      (if ((fun _ _ => (-2 : ℚ)) 0 0) ≤ 0 then 1
        else (fun _ _ => (-2 : ℚ)) 0 0)
    ∧ (((fun _ _ => (-2 : ℚ)) 0 0) ≤ 0 →
        (compute_error [0] [0] ceExOld (fun _ _ => -2)).2 0 0 = 1)
    ∧ (0 < ((fun _ _ => (-2 : ℚ)) 0 0) →
        (compute_error [0] [0] ceExOld (fun _ _ => -2)).2 0 0 =
          (fun _ _ => (-2 : ℚ)) 0 0)
    ∧ run_loop ceExS (1 :: []) ceExOld ceExS.new_init =
      ⟨(run_loop ceExS []
          (fun a b => ceExOld a b + (1 / ((1 : ℕ) : ℚ)) *
            ((if (ceExS.oracle 1).heads a b ≤ 0 then 1
              else (ceExS.oracle 1).heads a b) - ceExOld a b))
          (fun a b => if (ceExS.oracle 1).heads a b ≤ 0 then 1
            else (ceExS.oracle 1).heads a b)).result,
        (run_loop ceExS []
          (fun a b => ceExOld a b + (1 / ((1 : ℕ) : ℚ)) *
            ((if (ceExS.oracle 1).heads a b ≤ 0 then 1
              else (ceExS.oracle 1).heads a b) - ceExOld a b))
          (fun a b => if (ceExS.oracle 1).heads a b ≤ 0 then 1
            else (ceExS.oracle 1).heads a b)).solves + 1,
        (run_loop ceExS []
          (fun a b => ceExOld a b + (1 / ((1 : ℕ) : ℚ)) *
            ((if (ceExS.oracle 1).heads a b ≤ 0 then 1
              else (ceExS.oracle 1).heads a b) - ceExOld a b))
          (fun a b => if (ceExS.oracle 1).heads a b ≤ 0 then 1
            else (ceExS.oracle 1).heads a b)).iters + 1,
        (run_loop ceExS []
          (fun a b => ceExOld a b + (1 / ((1 : ℕ) : ℚ)) *
            ((if (ceExS.oracle 1).heads a b ≤ 0 then 1
              else (ceExS.oracle 1).heads a b) - ceExOld a b))
          (fun a b => if (ceExS.oracle 1).heads a b ≤ 0 then 1
            else (ceExS.oracle 1).heads a b)).oldW,
        (run_loop ceExS []
          (fun a b => ceExOld a b + (1 / ((1 : ℕ) : ℚ)) *
            ((if (ceExS.oracle 1).heads a b ≤ 0 then 1
              else (ceExS.oracle 1).heads a b) - ceExOld a b))
          (fun a b => if (ceExS.oracle 1).heads a b ≤ 0 then 1
            else (ceExS.oracle 1).heads a b)).newW⟩) :=
  ⟨rfl, by decide, by decide,
    by norm_num [ceExS, ceExOld, compute_error, listMean, clamp_nonpositive],
    compute_error_mutates_new_waterhead [0] [0] ceExOld (fun _ _ => -2)
      0 0 ceExS 1 [] ceExOld ceExS.new_init rfl (by decide) (by decide)
      (by norm_num [ceExS, ceExOld, compute_error, listMean,
        clamp_nonpositive])⟩

/-! ## Power balance (`prepshot/model.py` `power_balance_rule` and
`prepshot/_model/demand.py` `AddDemandConstraints.power_balance_rule`) -/

/-- Parameters read by the power-balance rules: the zone, technology and
storage-technology lists, the existing transmission-capacity table
(`para['transmission'][z, z1]`, `none` modelling an empty/NaN cell), and
the demand table `para['demand'][z, y, m, h]`. -/
structure BalanceParams where
  zones : List ℕ
  techs : List ℕ
  storage_techs : List ℕ
  transmission : ℕ → ℕ → Option ℚ
  demand : ℕ → ℤ → ℕ → ℕ → ℚ

/-- Valuation of the decision variables mentioned by the power-balance
constraint, indexed `[h, m, y, ...]` as in the source. -/
structure BalanceVars where
  trans_import : ℕ → ℕ → ℤ → ℕ → ℕ → ℚ
  trans_export : ℕ → ℕ → ℤ → ℕ → ℕ → ℚ
  gen : ℕ → ℕ → ℤ → ℕ → ℕ → ℚ
  charge : ℕ → ℕ → ℤ → ℕ → ℕ → ℚ

/-- `power_balance_rule` of the pyomo builder (`model.py`): the constraint
`demand == imp - exp + gen - charge` embedded as the residual
`demand - (imp - exp + gen - charge)`, with the import and export sums
filtered to `z1 ≠ z` having a declared (non-NaN) `transmission[z, z1]`
entry. -/
def power_balance_residual_legacy (p : BalanceParams) (v : BalanceVars)
    (h m : ℕ) (y : ℤ) (z : ℕ) : ℚ :=
  p.demand z y m h -
    ((((p.zones.filter fun z1 => decide (z ≠ z1) &&
          (p.transmission z z1).isSome).map
        fun z1 => v.trans_import h m y z1 z).sum)
      - (((p.zones.filter fun z1 => decide (z ≠ z1) &&
            (p.transmission z z1).isSome).map
          fun z1 => v.trans_export h m y z z1).sum)
      + ((p.techs.map fun te => v.gen h m y z te).sum)
      - ((p.storage_techs.map fun te => v.charge h m y z te).sum))

/-- `AddDemandConstraints.power_balance_rule` of the pyoptinterface
builder (`_model/demand.py`): the same residual, but the import and
export `quicksum`s range over every `z1 in model.zone`, with no link
filter and no `z1 ≠ z` test. -/
def power_balance_residual_demand (p : BalanceParams) (v : BalanceVars)
    (h m : ℕ) (y : ℤ) (z : ℕ) : ℚ :=
  p.demand z y m h -
    (((p.zones.map fun z1 => v.trans_import h m y z1 z).sum)
      - ((p.zones.map fun z1 => v.trans_export h m y z z1).sum)
      + ((p.techs.map fun te => v.gen h m y z te).sum)
      - ((p.storage_techs.map fun te => v.charge h m y z te).sum))

/-- The power-balance residual exactly as the claim states it: import and
export sums range only over zones `z1 ≠ z` that have a valid (declared,
non-missing) transmission entry with `z`, written over the deduplicated
zone set. -/
def power_balance_residual_spec (p : BalanceParams) (v : BalanceVars)
    (h m : ℕ) (y : ℤ) (z : ℕ) : ℚ :=
  p.demand z y m h -
    ((∑ z1 ∈ p.zones.toFinset.filter
        (fun z1 => z1 ≠ z ∧ (p.transmission z z1).isSome),
        v.trans_import h m y z1 z)
      - (∑ z1 ∈ p.zones.toFinset.filter
          (fun z1 => z1 ≠ z ∧ (p.transmission z z1).isSome),
          v.trans_export h m y z z1)
      + (∑ te ∈ p.techs.toFinset, v.gen h m y z te)
      - (∑ te ∈ p.storage_techs.toFinset, v.charge h m y z te))

theorem sum_map_eq_finset (l : List ℕ) (hl : l.Nodup) (f : ℕ → ℚ) :
    (l.map f).sum = ∑ x ∈ l.toFinset, f x :=
  (List.sum_toFinset f hl).symm

theorem sum_map_filter_eq_finset (l : List ℕ) (hl : l.Nodup)
    (P : ℕ → Prop) [DecidablePred P] (q : ℕ → Bool)
    (hq : ∀ x, q x = true ↔ P x) (f : ℕ → ℚ) :
    ((l.filter q).map f).sum = ∑ x ∈ l.toFinset.filter P, f x := by
  rw [← List.sum_toFinset f (hl.filter q)]
  rw [List.toFinset_filter]
  congr 1
  apply Finset.filter_congr
  intro x _
  exact hq x

/-- **C3** (amended): the legacy pyomo power-balance rule (`model.py`)
builds exactly the claimed equality — imports/exports restricted to zones
`z1 ≠ z` with a declared transmission entry — while the pyoptinterface
rule (`_model/demand.py`) sums imports and exports over every zone `z1`
in the zone list (including `z1 = z` and pairs with no declared link). -/
theorem power_balance_link_filtered
    (p : BalanceParams) (v : BalanceVars) (h m : ℕ) (y : ℤ) (z : ℕ)
    (hz : p.zones.Nodup) (ht : p.techs.Nodup)
    (hs : p.storage_techs.Nodup) :
    power_balance_residual_legacy p v h m y z =
      power_balance_residual_spec p v h m y z
    ∧ power_balance_residual_demand p v h m y z =
      p.demand z y m h -
        ((∑ z1 ∈ p.zones.toFinset, v.trans_import h m y z1 z)
          - (∑ z1 ∈ p.zones.toFinset, v.trans_export h m y z z1)
          + (∑ te ∈ p.techs.toFinset, v.gen h m y z te)
          - (∑ te ∈ p.storage_techs.toFinset, v.charge h m y z te)) := by
  have hq : ∀ x, (decide (z ≠ x) && (p.transmission z x).isSome) = true ↔
      (x ≠ z ∧ (p.transmission z x).isSome) := by
    intro x
    rw [Bool.and_eq_true, decide_eq_true_eq]
    constructor
    · rintro ⟨h1, h2⟩
      exact ⟨fun hx => h1 hx.symm, h2⟩
    · rintro ⟨h1, h2⟩
      exact ⟨fun hx => h1 hx.symm, h2⟩
  constructor
  · unfold power_balance_residual_legacy power_balance_residual_spec
    rw [sum_map_filter_eq_finset p.zones hz _ _ hq,
      sum_map_filter_eq_finset p.zones hz _ _ hq,
      sum_map_eq_finset p.techs ht, sum_map_eq_finset p.storage_techs hs]
  · unfold power_balance_residual_demand
    rw [sum_map_eq_finset p.zones hz, sum_map_eq_finset p.zones hz,
      sum_map_eq_finset p.techs ht, sum_map_eq_finset p.storage_techs hs]

/-- Concrete parameters for the C3 counterexample: two zones, no declared
transmission entry anywhere, zero demand, no technologies. -/
def pbCexP : BalanceParams :=
  ⟨[0, 1], [], [], fun _ _ => none, fun _ _ _ _ => 0⟩

/-- Concrete valuation for the C3 counterexample: one unit flowing on the
undeclared link from zone 1 into zone 0. -/
def pbCexV : BalanceVars :=
  ⟨fun _ _ _ z1 z => if z1 = 1 ∧ z = 0 then 1 else 0,
    fun _ _ _ _ _ => 0, fun _ _ _ _ _ => 0, fun _ _ _ _ _ => 0⟩

/-- **C3 counterexample**: at a concrete input with no declared
transmission link, the constraint built by
`AddDemandConstraints.power_balance_rule` differs from the claimed
link-filtered equality: its residual counts the import variable of the
undeclared pair (1, 0). -/
theorem power_balance_demand_unfiltered_cex :
    (pbCexP.transmission 0 1).isSome = false ∧
    (pbCexP.transmission 1 0).isSome = false ∧
    power_balance_residual_demand pbCexP pbCexV 0 0 0 0 = -1 ∧
    power_balance_residual_spec pbCexP pbCexV 0 0 0 0 = 0 ∧
    power_balance_residual_demand pbCexP pbCexV 0 0 0 0 ≠
      power_balance_residual_spec pbCexP pbCexV 0 0 0 0 := by
  refine ⟨rfl, rfl, ?_, ?_, ?_⟩
  · norm_num [power_balance_residual_demand, pbCexP, pbCexV]
  · norm_num [power_balance_residual_spec, pbCexP, pbCexV]
  · norm_num [power_balance_residual_demand, power_balance_residual_spec,
      pbCexP, pbCexV]

theorem power_balance_link_filtered_witness :
    List.Nodup pbCexP.zones ∧ List.Nodup pbCexP.techs ∧
    List.Nodup pbCexP.storage_techs ∧
    (power_balance_residual_legacy pbCexP pbCexV 0 0 0 0 =
      power_balance_residual_spec pbCexP pbCexV 0 0 0 0
    ∧ power_balance_residual_demand pbCexP pbCexV 0 0 0 0 =
      pbCexP.demand 0 0 0 0 -
        ((∑ z1 ∈ pbCexP.zones.toFinset, pbCexV.trans_import 0 0 0 z1 0)
          - (∑ z1 ∈ pbCexP.zones.toFinset, pbCexV.trans_export 0 0 0 0 z1)
          + (∑ te ∈ pbCexP.techs.toFinset, pbCexV.gen 0 0 0 0 te)
          - (∑ te ∈ pbCexP.storage_techs.toFinset,
              pbCexV.charge 0 0 0 0 te))) :=
  ⟨by decide, by decide, by decide,
    power_balance_link_filtered pbCexP pbCexV 0 0 0 0
      (by decide) (by decide) (by decide)⟩

/-! ## Hydropower inflow lookback (`prepshot/_model/hydro.py`
`AddHydropowerConstraints.inflow_rule` and `prepshot/model.py`
`total_inflow_rule`) -/

/-- The wrap-up loop `while t < hour[0]: t += int(24 / dt)` in
`inflow_rule`.  The Python loop diverges when the step is not positive
(`int(24 / dt) = 0` for `dt > 24`), so a positive step is a parameter of
the definition. -/
def wrap_up (first step : ℤ) (hstep : 0 < step) (t : ℤ) : ℤ :=
  if t < first then wrap_up first step hstep (t + step) else t
termination_by (first - t).toNat
decreasing_by
  simp_wf
  omega

theorem wrap_up_of_ge (first step : ℤ) (hstep : 0 < step) (t : ℤ)
    (h : first ≤ t) : wrap_up first step hstep t = t := by
  rw [wrap_up, if_neg (not_lt.mpr h)]

theorem wrap_up_ge (first step : ℤ) (hstep : 0 < step) (t : ℤ) :
    first ≤ wrap_up first step hstep t := by
  rw [wrap_up]
  split
  · exact wrap_up_ge first step hstep (t + step)
  · omega
termination_by (first - t).toNat
decreasing_by
  simp_wf
  omega

theorem wrap_up_le_of_lt (first step : ℤ) (hstep : 0 < step) (t : ℤ)
    (h : t < first) : wrap_up first step hstep t ≤ first + step - 1 := by
  rw [wrap_up, if_pos h]
  by_cases h2 : t + step < first
  · exact wrap_up_le_of_lt first step hstep (t + step) h2
  · rw [wrap_up_of_ge first step hstep (t + step) (by omega)]
    omega
termination_by (first - t).toNat
decreasing_by
  simp_wf
  omega

/-- The delayed-outflow lookback index computed by
`AddHydropowerConstraints.inflow_rule` (`_model/hydro.py`): with the
whole-period delay `d = int(int(delay) / dt)`, take `t = h - d` if that
is at least `hour[0]`, else `t = hour[-1] + h - d`, then add
`int(24 / dt)` while `t < hour[0]`. -/
def inflow_lookback (first last step : ℤ) (hstep : 0 < step)
    (d h : ℤ) : ℤ :=
  wrap_up first step hstep (if first ≤ h - d then h - d else last + h - d)

/-- The delayed-outflow lookback index of the legacy `total_inflow_rule`
(`model.py` and `model_hydro.py`): a single wrap
`Hour[-1] - delay + h`, with no loop. -/
def total_inflow_lookback (first last d h : ℤ) : ℤ :=
  if first ≤ h - d then h - d else last - d + h

/-- **C6** (amended): in the guarded rule of `_model/hydro.py`, for an
operational horizon of hours `1 .. L` (as the hour set is built), a wrap
step `int(24/dt)` between 1 and `L`, a non-negative whole-period delay
`d = int(int(delay)/dt)` — arbitrarily larger than the horizon — and any
hour `h` in range, the lookback index stays within `[1, L]`; the legacy
`total_inflow_rule` of `model.py` wraps only once and its index drops
below the first hour when the delay exceeds the horizon (see the
counterexample). -/
theorem inflow_lookback_in_range (L step d h : ℤ) (hstep : 0 < step)
    (_hL : 1 ≤ L) (hsL : step ≤ L) (hd : 0 ≤ d)
    (_hh1 : 1 ≤ h) (hh2 : h ≤ L) :
    1 ≤ inflow_lookback 1 L step hstep d h ∧
    inflow_lookback 1 L step hstep d h ≤ L := by
  unfold inflow_lookback
  refine ⟨wrap_up_ge 1 step hstep _, ?_⟩
  by_cases hc : (1 : ℤ) ≤ h - d
  · rw [if_pos hc, wrap_up_of_ge 1 step hstep _ hc]
    omega
  · rw [if_neg hc]
    by_cases hc2 : (1 : ℤ) ≤ L + h - d
    · rw [wrap_up_of_ge 1 step hstep _ hc2]
      omega
    · have hle := wrap_up_le_of_lt 1 step hstep (L + h - d) (by omega)
      omega

/-- **C6 counterexample**: with the hour set `1 .. 24` (so
`hour[0] = 1`, `hour[-1] = 24`), `dt = 1` and a propagation delay of 30
periods — larger than the horizon — the legacy `total_inflow_rule`
lookback at `h = 1` is `24 - 30 + 1 = -5`, outside `[first, last]`. -/
theorem total_inflow_lookback_out_of_range_cex :
    total_inflow_lookback 1 24 30 1 = -5 ∧
    total_inflow_lookback 1 24 30 1 < 1 := by
  constructor <;> decide

theorem inflow_lookback_in_range_witness :
    (0 : ℤ) < 24 ∧ (1 : ℤ) ≤ 24 ∧ (24 : ℤ) ≤ 24 ∧ (0 : ℤ) ≤ 30 ∧
    (1 : ℤ) ≤ 1 ∧ (1 : ℤ) ≤ 24 ∧
    (1 ≤ inflow_lookback 1 24 24 (by norm_num) 30 1 ∧
      inflow_lookback 1 24 24 (by norm_num) 30 1 ≤ 24) :=
  ⟨by norm_num, by norm_num, by norm_num, by norm_num, by norm_num,
    by norm_num,
    inflow_lookback_in_range 24 24 30 1 (by norm_num) (by norm_num)
      (by norm_num) (by norm_num) (by norm_num) (by norm_num)⟩

/-! ## Constraint omission on infinite bounds
(`prepshot/_model/investment.py` `tech_up_bound_rule`,
`new_tech_up_bound_rule`; `prepshot/_model/co2.py` `emission_limit_rule`)
and transmission tuples (`prepshot/model.py`,
`prepshot/_model/transmission.py`). -/

/-- Sense of a linear constraint (`poi.Leq`, `poi.Geq`, `poi.Eq`). -/
inductive Sense where
  | leq : Sense
  | geq : Sense
  | eq : Sense
deriving DecidableEq

/-- A constraint built by `add_linear_constraint(lhs, sense, 0)`: the
value of `lhs` under the ambient valuation, compared to 0 with the given
sense. -/
structure LinCons where
  lhsVal : ℚ
  sense : Sense
deriving DecidableEq

/-- Satisfaction of a built constraint. -/
def LinCons.sat (c : LinCons) : Prop :=
  match c.sense with
  | Sense.leq => c.lhsVal ≤ 0
  | Sense.geq => 0 ≤ c.lhsVal
  | Sense.eq => c.lhsVal = 0

/-- Parameters read by the bound rules: index sets, the per-(technology,
zone) upper bounds and the per-year carbon limit; `none` models the value
`np.Inf` ("infinite"). -/
structure BoundParams where
  years : List ℤ
  zones : List ℕ
  techs : List ℕ
  technology_upper_bound : ℕ → ℕ → Option ℚ
  new_technology_upper_bound : ℕ → ℕ → Option ℚ
  carbon_emission_limit : ℤ → Option ℚ

/-- `AddInvestmentConstraints.tech_up_bound_rule`: if the bound is not
infinite, add `cap_existing[y,z,te] - tub ≤ 0`; else return `None`. -/
def tech_up_bound_rule (p : BoundParams)
    (cap_existing : ℤ → ℕ → ℕ → ℚ) (y : ℤ) (z te : ℕ) : Option LinCons :=
  match p.technology_upper_bound te z with
  | some tub => some ⟨cap_existing y z te - tub, Sense.leq⟩
  | none => none

/-- `AddInvestmentConstraints.new_tech_up_bound_rule`: if the bound is not
infinite, add `cap_newtech[y,z,te] - ntub ≤ 0`; else return `None`. -/
def new_tech_up_bound_rule (p : BoundParams)
    (cap_newtech : ℤ → ℕ → ℕ → ℚ) (y : ℤ) (z te : ℕ) : Option LinCons :=
  match p.new_technology_upper_bound te z with
  | some ntub => some ⟨cap_newtech y z te - ntub, Sense.leq⟩
  | none => none

/-- `AddCo2EmissionConstraints.emission_limit_rule`: `None` when the
year's limit is `np.Inf`, else `carbon[y] - limit[y] ≤ 0`. -/
def emission_limit_rule (p : BoundParams) (carbon : ℤ → ℚ) (y : ℤ) :
    Option LinCons :=
  match p.carbon_emission_limit y with
  | some limit => some ⟨carbon y - limit, Sense.leq⟩
  | none => none

/-- The year × zone × tech tuple list the bound-rule tupledicts run
over. -/
def year_zone_tech_tuples (p : BoundParams) : List (ℤ × ℕ × ℕ) :=
  p.years.flatMap fun y => p.zones.flatMap fun z =>
    p.techs.map fun te => (y, z, te)

theorem mem_year_zone_tech_tuples (p : BoundParams) (y : ℤ) (z te : ℕ) :
    (y, z, te) ∈ year_zone_tech_tuples p ↔
      y ∈ p.years ∧ z ∈ p.zones ∧ te ∈ p.techs := by
  unfold year_zone_tech_tuples
  simp only [List.mem_flatMap, List.mem_map, Prod.mk.injEq]
  constructor
  · rintro ⟨y', hy', z', hz', te', hte', rfl, rfl, rfl⟩
    exact ⟨hy', hz', hte'⟩
  · rintro ⟨hy, hz, hte⟩
    exact ⟨y, hy, z, hz, te, hte, rfl, rfl, rfl⟩

/-- **C7**: for each of the three bound families, an infinite bound makes
the rule return `None` and leaves the tuple absent from the constraint
tupledict; a finite bound `b` produces the `≤` constraint whose
satisfaction is exactly `expression ≤ b`. -/
theorem infinite_bound_omits_constraint (p : BoundParams)
    (cap_existing cap_newtech : ℤ → ℕ → ℕ → ℚ) (carbon : ℤ → ℚ)
    (y : ℤ) (z te : ℕ)
    (hy : y ∈ p.years) (hz : z ∈ p.zones) (hte : te ∈ p.techs) :
    (tech_up_bound_rule p cap_existing y z te = none ↔
      p.technology_upper_bound te z = none)
    ∧ (∀ b : ℚ, p.technology_upper_bound te z = some b →
        tech_up_bound_rule p cap_existing y z te =
          some ⟨cap_existing y z te - b, Sense.leq⟩ ∧
        ((⟨cap_existing y z te - b, Sense.leq⟩ : LinCons).sat ↔
          cap_existing y z te ≤ b))
    ∧ ((y, z, te) ∈ (make_tupledict (year_zone_tech_tuples p)
          (fun t => tech_up_bound_rule p cap_existing t.1 t.2.1 t.2.2)).map
            Prod.fst ↔
        p.technology_upper_bound te z ≠ none)
    ∧ (new_tech_up_bound_rule p cap_newtech y z te = none ↔
        p.new_technology_upper_bound te z = none)
    ∧ (∀ b : ℚ, p.new_technology_upper_bound te z = some b →
        new_tech_up_bound_rule p cap_newtech y z te =
          some ⟨cap_newtech y z te - b, Sense.leq⟩ ∧
        ((⟨cap_newtech y z te - b, Sense.leq⟩ : LinCons).sat ↔
          cap_newtech y z te ≤ b))
    ∧ ((y, z, te) ∈ (make_tupledict (year_zone_tech_tuples p)
          (fun t =>
            new_tech_up_bound_rule p cap_newtech t.1 t.2.1 t.2.2)).map
            Prod.fst ↔
        p.new_technology_upper_bound te z ≠ none)
    ∧ (emission_limit_rule p carbon y = none ↔
        p.carbon_emission_limit y = none)
    ∧ (∀ b : ℚ, p.carbon_emission_limit y = some b →
        emission_limit_rule p carbon y =
          some ⟨carbon y - b, Sense.leq⟩ ∧
        ((⟨carbon y - b, Sense.leq⟩ : LinCons).sat ↔ carbon y ≤ b))
    ∧ (y ∈ (make_tupledict p.years
          (fun y' => emission_limit_rule p carbon y')).map Prod.fst ↔
        p.carbon_emission_limit y ≠ none) := by
  have hmem : (y, z, te) ∈ year_zone_tech_tuples p :=
    (mem_year_zone_tech_tuples p y z te).mpr ⟨hy, hz, hte⟩
  refine ⟨?_, ?_, ?_, ?_, ?_, ?_, ?_, ?_, ?_⟩
  · unfold tech_up_bound_rule
    cases p.technology_upper_bound te z <;> simp
  · intro b hb
    unfold tech_up_bound_rule
    rw [hb]
    refine ⟨rfl, ?_⟩
    show cap_existing y z te - b ≤ 0 ↔ _
    constructor <;> intro hle <;> linarith
  · rw [mem_keys_make_tupledict]
    unfold tech_up_bound_rule
    cases p.technology_upper_bound te z <;> simp [hmem]
  · unfold new_tech_up_bound_rule
    cases p.new_technology_upper_bound te z <;> simp
  · intro b hb
    unfold new_tech_up_bound_rule
    rw [hb]
    refine ⟨rfl, ?_⟩
    show cap_newtech y z te - b ≤ 0 ↔ _
    constructor <;> intro hle <;> linarith
  · rw [mem_keys_make_tupledict]
    unfold new_tech_up_bound_rule
    cases p.new_technology_upper_bound te z <;> simp [hmem]
  · unfold emission_limit_rule
    cases p.carbon_emission_limit y <;> simp
  · intro b hb
    unfold emission_limit_rule
    rw [hb]
    refine ⟨rfl, ?_⟩
    show carbon y - b ≤ 0 ↔ _
    constructor <;> intro hle <;> linarith
  · rw [mem_keys_make_tupledict]
    unfold emission_limit_rule
    cases p.carbon_emission_limit y <;> simp [hy]

/-- Concrete parameters for the C7 witness: the technology bound is
infinite (omitted constraint), the new-technology bound and the carbon
limit are finite. -/
def boundExP : BoundParams :=
  ⟨[2025], [0], [0], fun _ _ => none, fun _ _ => some 40,
    fun _ => some 100⟩

theorem infinite_bound_omits_constraint_witness :
    (2025 : ℤ) ∈ boundExP.years ∧ (0 : ℕ) ∈ boundExP.zones ∧
    (0 : ℕ) ∈ boundExP.techs ∧
    ((tech_up_bound_rule boundExP (fun _ _ _ => 7) 2025 0 0 = none ↔
      boundExP.technology_upper_bound 0 0 = none)
    ∧ (∀ b : ℚ, boundExP.technology_upper_bound 0 0 = some b →
        tech_up_bound_rule boundExP (fun _ _ _ => 7) 2025 0 0 =
          some ⟨(fun (_ : ℤ) (_ _ : ℕ) => (7 : ℚ)) 2025 0 0 - b, Sense.leq⟩ ∧
        ((⟨(fun (_ : ℤ) (_ _ : ℕ) => (7 : ℚ)) 2025 0 0 - b,
            Sense.leq⟩ : LinCons).sat ↔
          (fun (_ : ℤ) (_ _ : ℕ) => (7 : ℚ)) 2025 0 0 ≤ b))
    ∧ (((2025 : ℤ), (0 : ℕ), (0 : ℕ)) ∈
        (make_tupledict (year_zone_tech_tuples boundExP)
          (fun t =>
            tech_up_bound_rule boundExP (fun _ _ _ => 7) t.1 t.2.1
              t.2.2)).map Prod.fst ↔
        boundExP.technology_upper_bound 0 0 ≠ none)
    ∧ (new_tech_up_bound_rule boundExP (fun _ _ _ => 9) 2025 0 0 = none ↔
        boundExP.new_technology_upper_bound 0 0 = none)
    ∧ (∀ b : ℚ, boundExP.new_technology_upper_bound 0 0 = some b →
        new_tech_up_bound_rule boundExP (fun _ _ _ => 9) 2025 0 0 =
          some ⟨(fun (_ : ℤ) (_ _ : ℕ) => (9 : ℚ)) 2025 0 0 - b, Sense.leq⟩ ∧
        ((⟨(fun (_ : ℤ) (_ _ : ℕ) => (9 : ℚ)) 2025 0 0 - b,
            Sense.leq⟩ : LinCons).sat ↔
          (fun (_ : ℤ) (_ _ : ℕ) => (9 : ℚ)) 2025 0 0 ≤ b))
    ∧ (((2025 : ℤ), (0 : ℕ), (0 : ℕ)) ∈
        (make_tupledict (year_zone_tech_tuples boundExP)
          (fun t =>
            new_tech_up_bound_rule boundExP (fun _ _ _ => 9) t.1 t.2.1
              t.2.2)).map Prod.fst ↔
        boundExP.new_technology_upper_bound 0 0 ≠ none)
    ∧ (emission_limit_rule boundExP (fun _ => 55) 2025 = none ↔
        boundExP.carbon_emission_limit 2025 = none)
    ∧ (∀ b : ℚ, boundExP.carbon_emission_limit 2025 = some b →
        emission_limit_rule boundExP (fun _ => 55) 2025 =
          some ⟨(fun (_ : ℤ) => (55 : ℚ)) 2025 - b, Sense.leq⟩ ∧
        ((⟨(fun (_ : ℤ) => (55 : ℚ)) 2025 - b, Sense.leq⟩ : LinCons).sat ↔
          (fun (_ : ℤ) => (55 : ℚ)) 2025 ≤ b))
    ∧ ((2025 : ℤ) ∈ (make_tupledict boundExP.years
          (fun y' => emission_limit_rule boundExP (fun _ => 55) y')).map
            Prod.fst ↔
        boundExP.carbon_emission_limit 2025 ≠ none)) :=
  ⟨by decide, by decide, by decide,
    infinite_bound_omits_constraint boundExP (fun _ _ _ => 7)
      (fun _ _ _ => 9) (fun _ => 55) 2025 0 0 (by decide) (by decide)
      (by decide)⟩

/-- Parameters of the transmission tuple set and constraints: modeled
years, zones, and the existing-capacity table
`para['transmission'][z, z1]` (`none` models an empty/NaN cell). -/
structure TransParams where
  years : List ℤ
  zones : List ℕ
  transmission : ℕ → ℕ → Option ℚ

/-- `model.year_zone_zone_tuples` (`model.py`): `(y, z, z1)` for every
modeled year and ordered zone pair with `z ≠ z1` whose existing-capacity
entry is present (non-NaN). -/
def year_zone_zone_tuples (p : TransParams) : List (ℤ × ℕ × ℕ) :=
  p.years.flatMap fun y => p.zones.flatMap fun z =>
    (p.zones.filter fun z1 => decide (z ≠ z1) &&
      (p.transmission z z1).isSome).map fun z1 => (y, z, z1)

/-- The legacy `trans_physical_rule` family (`model.py`): one equality
constraint `cap_newline[y,z,z1] == cap_newline[y,z1,z]` per tuple of
`year_zone_zone_tuples`. -/
def trans_physical_cons_legacy (p : TransParams)
    (cap_newline : ℤ → ℕ → ℕ → ℚ) : List ((ℤ × ℕ × ℕ) × LinCons) :=
  (year_zone_zone_tuples p).map fun t =>
    (t, ⟨cap_newline t.1 t.2.1 t.2.2 - cap_newline t.1 t.2.2 t.2.1,
      Sense.eq⟩)

/-- `AddTransmissionConstraints.trans_physical_rule`
(`_model/transmission.py`): emits the symmetry equality whenever
`z ≠ z1`, implicitly returning `None` for `z = z1`. -/
def trans_physical_rule_poi (cap_newline : ℤ → ℕ → ℕ → ℚ)
    (t : ℤ × ℕ × ℕ) : Option LinCons :=
  if t.2.1 ≠ t.2.2 then
    some ⟨cap_newline t.1 t.2.1 t.2.2 - cap_newline t.1 t.2.2 t.2.1,
      Sense.eq⟩
  else none

/-- The unfiltered year × zone × zone product over which
`AddTransmissionConstraints.__init__` runs `make_tupledict` for
`trans_physical_cons`. -/
def full_year_zone_zone_tuples (p : TransParams) : List (ℤ × ℕ × ℕ) :=
  p.years.flatMap fun y => p.zones.flatMap fun z =>
    p.zones.map fun z1 => (y, z, z1)

/-- The `trans_physical_cons` tupledict of the pyoptinterface builder. -/
def trans_physical_cons_poi (p : TransParams)
    (cap_newline : ℤ → ℕ → ℕ → ℚ) : List ((ℤ × ℕ × ℕ) × LinCons) :=
  make_tupledict (full_year_zone_zone_tuples p)
    (trans_physical_rule_poi cap_newline)

theorem mem_year_zone_zone_tuples (p : TransParams) (y : ℤ) (z z1 : ℕ) :
    (y, z, z1) ∈ year_zone_zone_tuples p ↔
      y ∈ p.years ∧ z ∈ p.zones ∧ z1 ∈ p.zones ∧ z ≠ z1 ∧
        (p.transmission z z1).isSome := by
  unfold year_zone_zone_tuples
  simp only [List.mem_flatMap, List.mem_map, List.mem_filter,
    Prod.mk.injEq, Bool.and_eq_true, decide_eq_true_eq]
  constructor
  · rintro ⟨y', hy', z', hz', z1', ⟨hz1', hne, hsome⟩, rfl, rfl, rfl⟩
    exact ⟨hy', hz', hz1', hne, hsome⟩
  · rintro ⟨hy, hz, hz1, hne, hsome⟩
    exact ⟨y, hy, z, hz, z1, ⟨hz1, hne, hsome⟩, rfl, rfl, rfl⟩

theorem mem_full_year_zone_zone_tuples (p : TransParams) (y : ℤ)
    (z z1 : ℕ) :
    (y, z, z1) ∈ full_year_zone_zone_tuples p ↔
      y ∈ p.years ∧ z ∈ p.zones ∧ z1 ∈ p.zones := by
  unfold full_year_zone_zone_tuples
  simp only [List.mem_flatMap, List.mem_map, Prod.mk.injEq]
  constructor
  · rintro ⟨y', hy', z', hz', z1', hz1', rfl, rfl, rfl⟩
    exact ⟨hy', hz', hz1'⟩
  · rintro ⟨hy, hz, hz1⟩
    exact ⟨y, hy, z, hz, z1, hz1, rfl, rfl, rfl⟩

/-- **C8** (amended): in the legacy builder (`model.py`) the transmission
tuple set contains exactly the ordered pairs `z ≠ z1` with a declared
(present, non-NaN) existing-capacity entry, and for every tuple of the
set an equality constraint `cap_newline[y,z,z1] = cap_newline[y,z1,z]` is
created, so an undeclared pair carries no transmission variables or
constraints there; the pyoptinterface builder
(`_model/transmission.py`), however, creates the symmetry equality for
every ordered pair `z ≠ z1` of the full zone product, with no declared-
entry filter (see the counterexample). -/
theorem trans_physical_symmetry_tuples (p : TransParams)
    (cap_newline : ℤ → ℕ → ℕ → ℚ) (y : ℤ) (z z1 : ℕ) :
    ((y, z, z1) ∈ year_zone_zone_tuples p ↔
      y ∈ p.years ∧ z ∈ p.zones ∧ z1 ∈ p.zones ∧ z ≠ z1 ∧
        (p.transmission z z1).isSome)
    ∧ ((y, z, z1) ∈ year_zone_zone_tuples p →
        ((y, z, z1),
          (⟨cap_newline y z z1 - cap_newline y z1 z,
            Sense.eq⟩ : LinCons)) ∈
          trans_physical_cons_legacy p cap_newline ∧
        ((⟨cap_newline y z z1 - cap_newline y z1 z,
            Sense.eq⟩ : LinCons).sat ↔
          cap_newline y z z1 = cap_newline y z1 z))
    ∧ ((y, z, z1) ∈ (trans_physical_cons_poi p cap_newline).map
          Prod.fst ↔
        y ∈ p.years ∧ z ∈ p.zones ∧ z1 ∈ p.zones ∧ z ≠ z1) := by
  refine ⟨mem_year_zone_zone_tuples p y z z1, ?_, ?_⟩
  · intro hmem
    constructor
    · unfold trans_physical_cons_legacy
      rw [List.mem_map]
      exact ⟨(y, z, z1), hmem, rfl⟩
    · show cap_newline y z z1 - cap_newline y z1 z = 0 ↔ _
      exact sub_eq_zero
  · unfold trans_physical_cons_poi
    rw [mem_keys_make_tupledict, mem_full_year_zone_zone_tuples]
    unfold trans_physical_rule_poi
    by_cases hne : z ≠ z1
    · rw [if_pos (by exact hne)]
      simp [hne]
    · rw [if_neg (by exact hne)]
      simp [hne]

/-- Concrete parameters for the C8 counterexample: one year, two zones,
no declared existing-capacity entry anywhere. -/
def transCexP : TransParams := ⟨[0], [0, 1], fun _ _ => none⟩

/-- **C8 counterexample**: the pair (0, 1) has no declared
existing-capacity entry, hence is outside the transmission tuple set,
yet the `_model/transmission.py` builder still creates a
`trans_physical` constraint for it — refuting "a pair with no entry
admits no transmission variables or constraints at all". -/
theorem trans_physical_poi_undeclared_pair_cex :
    transCexP.transmission 0 1 = none ∧
    ((0 : ℤ), (0 : ℕ), (1 : ℕ)) ∉ year_zone_zone_tuples transCexP ∧
    ((0 : ℤ), (0 : ℕ), (1 : ℕ)) ∈
      (trans_physical_cons_poi transCexP (fun _ _ _ => 0)).map
        Prod.fst := by
  refine ⟨rfl, ?_, ?_⟩
  · intro h
    rw [mem_year_zone_zone_tuples] at h
    obtain ⟨-, -, -, -, hsome⟩ := h
    cases hsome
  · unfold trans_physical_cons_poi
    rw [mem_keys_make_tupledict]
    refine ⟨by decide, ?_⟩
    rfl

/-- Concrete parameters for the C8 witness: one year, two zones, a
declared corridor between them (both directions). -/
def transWitP : TransParams :=
  ⟨[0], [0, 1], fun z z1 => if z ≠ z1 then some 5 else none⟩

theorem trans_physical_symmetry_tuples_witness :
    (((0 : ℤ), (0 : ℕ), (1 : ℕ)) ∈ year_zone_zone_tuples transWitP ↔
      (0 : ℤ) ∈ transWitP.years ∧ (0 : ℕ) ∈ transWitP.zones ∧
        (1 : ℕ) ∈ transWitP.zones ∧ (0 : ℕ) ≠ (1 : ℕ) ∧
        (transWitP.transmission 0 1).isSome)
    ∧ (((0 : ℤ), (0 : ℕ), (1 : ℕ)) ∈ year_zone_zone_tuples transWitP →
        (((0 : ℤ), (0 : ℕ), (1 : ℕ)),
          (⟨(fun (_ : ℤ) (a b : ℕ) => (a : ℚ) + b) 0 0 1 -
              (fun (_ : ℤ) (a b : ℕ) => (a : ℚ) + b) 0 1 0,
            Sense.eq⟩ : LinCons)) ∈
          trans_physical_cons_legacy transWitP
            (fun (_ : ℤ) (a b : ℕ) => (a : ℚ) + b) ∧
        ((⟨(fun (_ : ℤ) (a b : ℕ) => (a : ℚ) + b) 0 0 1 -
            (fun (_ : ℤ) (a b : ℕ) => (a : ℚ) + b) 0 1 0,
            Sense.eq⟩ : LinCons).sat ↔
          (fun (_ : ℤ) (a b : ℕ) => (a : ℚ) + b) 0 0 1 =
            (fun (_ : ℤ) (a b : ℕ) => (a : ℚ) + b) 0 1 0))
    ∧ (((0 : ℤ), (0 : ℕ), (1 : ℕ)) ∈
          (trans_physical_cons_poi transWitP
            (fun (_ : ℤ) (a b : ℕ) => (a : ℚ) + b)).map Prod.fst ↔
        (0 : ℤ) ∈ transWitP.years ∧ (0 : ℕ) ∈ transWitP.zones ∧
          (1 : ℕ) ∈ transWitP.zones ∧ (0 : ℕ) ≠ (1 : ℕ)) :=
  trans_physical_symmetry_tuples transWitP
    (fun (_ : ℤ) (a b : ℕ) => (a : ℚ) + b) 0 0 1

end PrepShot
